import Mathlib

/-!
# `kn revision delete`: the bulk delete loop

Shallow embedding of `NewRevisionDeleteCommand` (`pkg/kn/commands/revision/delete.go`).

* A Go `error` is represented by its display text (`Error()`), which is all the command
  ever observes of it besides `nil`-ness.
* `cmd.OutOrStdout()` is an `io.Writer`; it is modelled by the ordered list of chunks handed
  to it, one chunk per `fmt.Fprintf` call.  The bytes on the stream are the concatenation.
* The serving client is an object with hidden state `σ`; `DeleteRevision` is a transition on
  that state which also yields the returned `error` (`none` is `nil`).  Every invocation of
  `DeleteRevision` is recorded, with its argument and its result, in a call log.
* `GetNamespace` and `NewServingClient` are collaborators that do not write to the command's
  output stream; they are modelled by their return values.
-/

namespace Revision

/-- Go `error` value, observed through its `Error()` text. -/
structure GoError where
  Error : String
deriving DecidableEq, Repr

/-- Go `errors.New`. -/
def errorsNew (text : String) : GoError := ⟨text⟩

/-- The serving client: hidden state and the `DeleteRevision` method acting on it. -/
structure KnServingClient (σ : Type) where
  state : σ
  DeleteRevision : σ → String → Option GoError × σ

/-- The `commands.KnParams` fields used by the command; `κ` is the type of `*cobra.Command`. -/
structure KnParams (κ σ : Type) where
  GetNamespace : κ → Except GoError String
  NewServingClient : String → Except GoError (KnServingClient σ)

/-- Observable effects of one invocation: chunks written to `cmd.OutOrStdout()` and the
log of `DeleteRevision` invocations (argument and returned error), both in order. -/
structure Trace where
  writes : List String
  calls : List (String × Option GoError)
deriving DecidableEq, Repr

/-- No effect yet. -/
def Trace.empty : Trace := ⟨[], []⟩

/-- The bytes on the output stream: the chunks appended one after the other. -/
def Trace.out (t : Trace) : String := t.writes.foldl (fun acc s => acc ++ s) ""

/-- Error text of the empty-argument check. -/
def requiresNameMsg : String := "'kn revision delete' requires the revision name(s)"

/-- Chunk of `fmt.Fprintf(w, "%s.\n", err)`. -/
def fmtFailure (err : GoError) : String := err.Error ++ ".\n"

/-- Chunk of
`fmt.Fprintf(w, "Revision '%s' successfully deleted in namespace '%s'.\n", name, namespace)`. -/
def fmtSuccess (name ns : String) : String :=
  "Revision '" ++ name ++ "' successfully deleted in namespace '" ++ ns ++ "'.\n"

/-- One iteration of `for _, name := range args`. -/
def loopBody {σ : Type} (DeleteRevision : σ → String → Option GoError × σ) (ns : String)
    (acc : Trace × σ) (name : String) : Trace × σ :=
  match DeleteRevision acc.2 name with
  | (some err, s) =>
      (⟨acc.1.writes ++ [fmtFailure err], acc.1.calls ++ [(name, some err)]⟩, s)
  | (none, s) =>
      (⟨acc.1.writes ++ [fmtSuccess name ns], acc.1.calls ++ [(name, none)]⟩, s)

/-- The whole `for` loop, started from the accumulated effects `acc`. -/
def deleteLoop {σ : Type} (DeleteRevision : σ → String → Option GoError × σ) (ns : String)
    (acc : Trace × σ) (args : List String) : Trace × σ :=
  args.foldl (loopBody DeleteRevision ns) acc

/-- The `RunE` closure of `NewRevisionDeleteCommand`: returned error (`none` is `nil`)
and the effects of the invocation. -/
def RunE {κ σ : Type} (p : KnParams κ σ) (cmd : κ) (args : List String) :
    Option GoError × Trace :=
  if args.length < 1 then
    (some (errorsNew requiresNameMsg), Trace.empty)
  else
    match p.GetNamespace cmd with
    | .error err => (some err, Trace.empty)
    | .ok ns =>
      match p.NewServingClient ns with
      | .error err => (some err, Trace.empty)
      | .ok client =>
        (none, (deleteLoop client.DeleteRevision ns (Trace.empty, client.state) args).1)

/-- Number of `'.'` characters at the very end of a string. -/
def trailingDots (s : String) : Nat := (s.data.reverse.takeWhile (fun c => c == '.')).length

/-- A rendered line without its final newline character. -/
def dropNewline (s : String) : String := ⟨s.data.dropLast⟩

/-- Rendering of one recorded call, following the spec's `DeleteOutcome`: `Success`
renders as the success sentence, `Failure(message)` as the message and a period. -/
def renderOutcome (ns : String) (o : String × Option GoError) : String :=
  match o.2 with
  | some err => err.Error ++ ".\n"
  | none => "Revision '" ++ o.1 ++ "' successfully deleted in namespace '" ++ ns ++ "'.\n"

/-- What the client alone returns when `DeleteRevision` is called on the names of `args`
one after the other, starting in state `s`. -/
def clientResults {σ : Type} (DeleteRevision : σ → String → Option GoError × σ) :
    σ → List String → List (Option GoError)
  | _, [] => []
  | s, name :: rest =>
      (DeleteRevision s name).1 :: clientResults DeleteRevision (DeleteRevision s name).2 rest

/-! ### Test doubles for concrete runs -/

/-- A cluster holding a set of revision names: deleting a present name removes it, deleting
an absent one fails with the API server's not-found text. -/
def storeDelete (store : List String) (name : String) : Option GoError × List String :=
  if name ∈ store then (none, store.filter (fun r => r != name))
  else (some ⟨"revisions.serving.knative.dev \"" ++ name ++ "\" not found"⟩, store)

/-- Parameters resolving to namespace `ns` and a client over `store`. -/
def storeParams (ns : String) (store : List String) : KnParams Unit (List String) :=
  { GetNamespace := fun _ => .ok ns
    NewServingClient := fun _ => .ok ⟨store, storeDelete⟩ }

/-- A client without state whose result is a function of the name only. -/
def constParams (ns : String) (f : String → Option GoError) : KnParams Unit Unit :=
  { GetNamespace := fun _ => .ok ns
    NewServingClient := fun _ => .ok ⟨(), fun s name => (f name, s)⟩ }


/-! ### The loop -/

theorem clientResults_length {σ : Type} (D : σ → String → Option GoError × σ) :
    ∀ (args : List String) (s : σ), (clientResults D s args).length = args.length := by
  intro args
  induction args with
  | nil => intro s; rfl
  | cons name rest ih => intro s; simp [clientResults, ih]

theorem loopBody_eq {σ : Type} (D : σ → String → Option GoError × σ) (ns : String)
    (acc : Trace × σ) (name : String) :
    loopBody D ns acc name =
      (⟨acc.1.writes ++ [renderOutcome ns (name, (D acc.2 name).1)],
        acc.1.calls ++ [(name, (D acc.2 name).1)]⟩, (D acc.2 name).2) := by
  unfold loopBody
  rcases h : D acc.2 name with ⟨r, s⟩
  cases r <;> simp [renderOutcome, fmtFailure, fmtSuccess]

theorem deleteLoop_fst {σ : Type} (D : σ → String → Option GoError × σ) (ns : String) :
    ∀ (args : List String) (acc : Trace × σ),
      (deleteLoop D ns acc args).1 =
        ⟨acc.1.writes ++ (args.zip (clientResults D acc.2 args)).map (renderOutcome ns),
         acc.1.calls ++ args.zip (clientResults D acc.2 args)⟩ := by
  intro args
  induction args with
  | nil => intro acc; simp [deleteLoop, clientResults]
  | cons name rest ih =>
    intro acc
    have step : deleteLoop D ns acc (name :: rest)
        = deleteLoop D ns (loopBody D ns acc name) rest := rfl
    rw [step, ih, loopBody_eq]
    simp [clientResults]

/-- With a non-empty argument list, a resolved namespace and a constructed client, `RunE`
returns `nil` and its effects are those of the loop. -/
theorem RunE_resolved {κ σ : Type} (p : KnParams κ σ) (cmd : κ) (args : List String)
    (ns : String) (client : KnServingClient σ) (hargs : args ≠ [])
    (hns : p.GetNamespace cmd = .ok ns) (hcl : p.NewServingClient ns = .ok client) :
    RunE p cmd args =
      (none, ⟨(args.zip (clientResults client.DeleteRevision client.state args)).map
                (renderOutcome ns),
              args.zip (clientResults client.DeleteRevision client.state args)⟩) := by
  have hlen : ¬ args.length < 1 := by
    cases args with
    | nil => exact absurd rfl hargs
    | cons a rest => simp
  simp [RunE, hlen, hns, hcl, deleteLoop_fst, Trace.empty]

theorem RunE_nil {κ σ : Type} (p : KnParams κ σ) (cmd : κ) :
    RunE p cmd [] = (some (errorsNew requiresNameMsg), Trace.empty) := by
  simp [RunE]

theorem RunE_ns_error {κ σ : Type} (p : KnParams κ σ) (cmd : κ) (args : List String)
    (e : GoError) (hargs : args ≠ []) (hns : p.GetNamespace cmd = .error e) :
    RunE p cmd args = (some e, Trace.empty) := by
  have hlen : ¬ args.length < 1 := by
    cases args with
    | nil => exact absurd rfl hargs
    | cons a rest => simp
  simp [RunE, hlen, hns]

theorem RunE_client_error {κ σ : Type} (p : KnParams κ σ) (cmd : κ) (args : List String)
    (ns : String) (e : GoError) (hargs : args ≠ [])
    (hns : p.GetNamespace cmd = .ok ns) (hcl : p.NewServingClient ns = .error e) :
    RunE p cmd args = (some e, Trace.empty) := by
  have hlen : ¬ args.length < 1 := by
    cases args with
    | nil => exact absurd rfl hargs
    | cons a rest => simp
  simp [RunE, hlen, hns, hcl]

theorem out_foldl_acc (l : List String) :
    ∀ acc : String, l.foldl (fun a s => a ++ s) acc = acc ++ l.foldl (fun a s => a ++ s) "" := by
  induction l with
  | nil => intro acc; simp
  | cons x rest ih =>
    intro acc
    simp only [List.foldl_cons]
    rw [ih (acc ++ x), ih ("" ++ x), String.empty_append, String.append_assoc]

theorem out_append (a b : List String) :
    Trace.out ⟨a ++ b, []⟩ = Trace.out ⟨a, []⟩ ++ Trace.out ⟨b, []⟩ := by
  simp only [Trace.out, List.foldl_append]
  exact out_foldl_acc b _

theorem clientResults_stateless {σ : Type} (D : σ → String → Option GoError × σ)
    (f : String → Option GoError) (hf : ∀ s name, (D s name).1 = f name) :
    ∀ (args : List String) (s : σ), clientResults D s args = args.map f := by
  intro args
  induction args with
  | nil => intro s; rfl
  | cons name rest ih => intro s; simp [clientResults, hf, ih]

theorem dropNewline_line (m : String) : dropNewline (m ++ ".\n") = m ++ "." := by
  apply String.ext
  simp [dropNewline, String.data_append]

theorem trailingDots_snoc (m : String) : trailingDots (m ++ ".") = trailingDots m + 1 := by
  simp [trailingDots, String.data_append]

theorem zip_getElem?_left {β : Type} (l : List String) (r : List β)
    (hlen : r.length = l.length) (i : Nat) (x : String) (h : l[i]? = some x) :
    ∃ ri, r[i]? = some ri ∧ (l.zip r)[i]? = some (x, ri) := by
  obtain ⟨hi, _⟩ := List.getElem?_eq_some.mp h
  have hr : i < r.length := by omega
  refine ⟨r[i], List.getElem?_eq_getElem hr, ?_⟩
  exact List.getElem?_zip_eq_some.mpr ⟨h, List.getElem?_eq_getElem hr⟩

/-! ### The claims -/

/-- C1: with a non-empty argument list, a resolved namespace and a constructed client,
`RunE` returns `nil` whatever the individual `DeleteRevision` calls return; and whenever
`RunE` returns a non-nil error, the argument list is empty, or `GetNamespace` failed, or
`NewServingClient` failed. -/
theorem C1_nil_unless_structural {κ σ : Type} (p : KnParams κ σ) (cmd : κ)
    (args : List String) :
    (args ≠ [] → ∀ ns client, p.GetNamespace cmd = .ok ns →
        p.NewServingClient ns = .ok client → (RunE p cmd args).1 = none) ∧
    ((RunE p cmd args).1 ≠ none →
        args = [] ∨ (∃ e, p.GetNamespace cmd = .error e) ∨
        (∃ ns e, p.GetNamespace cmd = .ok ns ∧ p.NewServingClient ns = .error e)) := by
  constructor
  · intro hargs ns client hns hcl
    rw [RunE_resolved p cmd args ns client hargs hns hcl]
  · intro herr
    by_cases hargs : args = []
    · exact Or.inl hargs
    · right
      cases hns : p.GetNamespace cmd with
      | error e => exact Or.inl ⟨e, rfl⟩
      | ok ns =>
        right
        cases hcl : p.NewServingClient ns with
        | error e => exact ⟨ns, e, rfl, hcl⟩
        | ok client =>
          rw [RunE_resolved p cmd args ns client hargs hns hcl] at herr
          exact absurd rfl herr

/-- C1 on a run where every `DeleteRevision` call fails: two names, both rejected, and
`RunE` still returns `nil`, with the two failures in the call log. -/
theorem C1_nil_unless_structural_witness :
    (RunE (constParams "ns" (fun _ => some ⟨"boom"⟩)) () ["r1", "r2"]).1 = none ∧
    (RunE (constParams "ns" (fun _ => some ⟨"boom"⟩)) () ["r1", "r2"]).2.calls
      = [("r1", some ⟨"boom"⟩), ("r2", some ⟨"boom"⟩)] :=
  ⟨(C1_nil_unless_structural (constParams "ns" (fun _ => some ⟨"boom"⟩)) () ["r1", "r2"]).1
      (by decide) "ns" ⟨(), fun s name => (some ⟨"boom"⟩, s)⟩ rfl rfl,
   by decide⟩

/-- C2: on an empty argument list `RunE` returns the error
"'kn revision delete' requires the revision name(s)", `DeleteRevision` is never invoked
and nothing is written. -/
theorem C2_empty_args {κ σ : Type} (p : KnParams κ σ) (cmd : κ) :
    (RunE p cmd []).1 = some (errorsNew "'kn revision delete' requires the revision name(s)") ∧
    (RunE p cmd []).2.calls = [] ∧
    (RunE p cmd []).2.writes = [] ∧
    (RunE p cmd []).2.out = "" := by
  rw [RunE_nil]
  exact ⟨rfl, rfl, rfl, rfl⟩

/-- C3: for a non-empty argument list with namespace and client resolved, the output is
the concatenation, in input order, of one rendered outcome per argument: the chunks
written are the renderings of the logged calls, the logged calls pair the arguments in
order with what the client returned, and there are as many chunks as arguments. -/
theorem C3_one_line_per_identifier {κ σ : Type} (p : KnParams κ σ) (cmd : κ)
    (args : List String) (ns : String) (client : KnServingClient σ) (hargs : args ≠ [])
    (hns : p.GetNamespace cmd = .ok ns) (hcl : p.NewServingClient ns = .ok client) :
    (RunE p cmd args).2.calls
        = args.zip (clientResults client.DeleteRevision client.state args) ∧
    (RunE p cmd args).2.writes = (RunE p cmd args).2.calls.map (renderOutcome ns) ∧
    (RunE p cmd args).2.out
        = ((RunE p cmd args).2.calls.map (renderOutcome ns)).foldl (fun a s => a ++ s) "" ∧
    (RunE p cmd args).2.writes.length = args.length := by
  rw [RunE_resolved p cmd args ns client hargs hns hcl]
  refine ⟨rfl, rfl, rfl, ?_⟩
  simp [clientResults_length]

/-- C3 on the spec's example: `[A, B, C]` in namespace `ns`, where `A` and `C` succeed and
`B` fails with `revisions.example.dev "B" not found`. -/
theorem C3_one_line_per_identifier_witness :
    (RunE (constParams "ns" (fun name =>
        if name = "B" then some ⟨"revisions.example.dev \"B\" not found"⟩ else none))
      () ["A", "B", "C"]).2.writes.length = 3 ∧
    (RunE (constParams "ns" (fun name =>
        if name = "B" then some ⟨"revisions.example.dev \"B\" not found"⟩ else none))
      () ["A", "B", "C"]).2.out
      = "Revision 'A' successfully deleted in namespace 'ns'.\nrevisions.example.dev \"B\" not found.\nRevision 'C' successfully deleted in namespace 'ns'.\n" :=
  ⟨(C3_one_line_per_identifier (constParams "ns" (fun name =>
        if name = "B" then some ⟨"revisions.example.dev \"B\" not found"⟩ else none))
      () ["A", "B", "C"] "ns"
      ⟨(), fun s name =>
        (if name = "B" then some ⟨"revisions.example.dev \"B\" not found"⟩ else none, s)⟩
      (by decide) rfl rfl).2.2.2,
   by decide⟩

/-- C4: when the `i`-th `DeleteRevision` call (for argument `name`) returns no error, the
`i`-th chunk written is exactly `Revision '<name>' successfully deleted in namespace
'<ns>'.` and a newline, where `name` is the `i`-th argument unchanged and `ns` is the one
namespace `GetNamespace` returned for the invocation. -/
theorem C4_success_line {κ σ : Type} (p : KnParams κ σ) (cmd : κ)
    (args : List String) (ns : String) (client : KnServingClient σ) (hargs : args ≠ [])
    (hns : p.GetNamespace cmd = .ok ns) (hcl : p.NewServingClient ns = .ok client)
    (i : Nat) (name : String) (hcall : (RunE p cmd args).2.calls[i]? = some (name, none)) :
    args[i]? = some name ∧
    (RunE p cmd args).2.writes[i]?
      = some ("Revision '" ++ name ++ "' successfully deleted in namespace '" ++ ns ++ "'.\n") := by
  rw [RunE_resolved p cmd args ns client hargs hns hcl] at hcall ⊢
  simp only at hcall ⊢
  constructor
  · have hfst := congrArg (Option.map Prod.fst) hcall
    rw [← List.getElem?_map, List.map_fst_zip] at hfst
    · simpa using hfst
    · simp [clientResults_length]
  · rw [List.getElem?_map, hcall]
    rfl

/-- C4 on a run: revision `hello-1` exists in namespace `default`, its delete succeeds
and the line names the revision and the namespace. -/
theorem C4_success_line_witness :
    (RunE (storeParams "default" ["hello-1"]) () ["hello-1"]).2.calls[0]?
      = some ("hello-1", none) ∧
    (RunE (storeParams "default" ["hello-1"]) () ["hello-1"]).2.writes[0]?
      = some "Revision 'hello-1' successfully deleted in namespace 'default'.\n" :=
  ⟨by decide,
   (C4_success_line (storeParams "default" ["hello-1"]) () ["hello-1"] "default"
      ⟨["hello-1"], storeDelete⟩ (by decide) rfl rfl 0 "hello-1" (by decide)).2⟩

/-- C5: when the `i`-th `DeleteRevision` call returns an error `e`, the `i`-th chunk
written is exactly the text of `e`, a period and a newline, whatever the text is; neither
the argument nor the namespace enters the line. -/
theorem C5_failure_line {κ σ : Type} (p : KnParams κ σ) (cmd : κ)
    (args : List String) (ns : String) (client : KnServingClient σ) (hargs : args ≠ [])
    (hns : p.GetNamespace cmd = .ok ns) (hcl : p.NewServingClient ns = .ok client)
    (i : Nat) (name : String) (e : GoError)
    (hcall : (RunE p cmd args).2.calls[i]? = some (name, some e)) :
    (RunE p cmd args).2.writes[i]? = some (e.Error ++ ".\n") := by
  rw [RunE_resolved p cmd args ns client hargs hns hcl] at hcall ⊢
  simp only at hcall ⊢
  rw [List.getElem?_map, hcall]
  rfl

/-- C5 on a run whose error text already ends with punctuation: the period is appended
all the same. -/
theorem C5_failure_line_witness :
    (RunE (constParams "ns" (fun _ => some ⟨"denied!"⟩)) () ["r"]).2.calls[0]?
      = some ("r", some ⟨"denied!"⟩) ∧
    (RunE (constParams "ns" (fun _ => some ⟨"denied!"⟩)) () ["r"]).2.writes[0]?
      = some "denied!.\n" :=
  ⟨by decide,
   C5_failure_line (constParams "ns" (fun _ => some ⟨"denied!"⟩)) () ["r"] "ns"
      ⟨(), fun s _ => (some ⟨"denied!"⟩, s)⟩ (by decide) rfl rfl 0 "r" ⟨"denied!"⟩
      (by decide)⟩

/-- C6 as stated fails: the collaborator text `gone.` ends in a period, the line written
for it is `gone..` and a newline, which ends in two periods, not one. -/
theorem C6_counterexample :
    "gone.".data.getLast? = some '.' ∧
    (RunE (constParams "ns" (fun _ => some ⟨"gone."⟩)) () ["r"]).2.writes = ["gone..\n"] ∧
    trailingDots (dropNewline "gone..\n") = 2 ∧
    ¬ (∀ m : String, m.data.getLast? = some '.' →
        trailingDots (dropNewline (fmtFailure ⟨m⟩)) = 1) := by
  refine ⟨by decide, by decide, by decide, ?_⟩
  intro h
  exact absurd (h "gone." (by decide)) (by decide)

/-- C6 amended: failure rendering never strips a period and always appends exactly one.
When the `i`-th `DeleteRevision` call returns an error `e`, the line written for it,
without its newline, is the text of `e` followed by one period, so it ends in one more
period than the text of `e` does. -/
theorem C6_appends_one_period {κ σ : Type} (p : KnParams κ σ) (cmd : κ)
    (args : List String) (ns : String) (client : KnServingClient σ) (hargs : args ≠ [])
    (hns : p.GetNamespace cmd = .ok ns) (hcl : p.NewServingClient ns = .ok client)
    (i : Nat) (name : String) (e : GoError)
    (hcall : (RunE p cmd args).2.calls[i]? = some (name, some e)) :
    ∃ line, (RunE p cmd args).2.writes[i]? = some line ∧
      dropNewline line = e.Error ++ "." ∧
      trailingDots (dropNewline line) = trailingDots e.Error + 1 := by
  refine ⟨e.Error ++ ".\n", ?_, dropNewline_line e.Error, ?_⟩
  · rw [RunE_resolved p cmd args ns client hargs hns hcl] at hcall ⊢
    simp only at hcall ⊢
    rw [List.getElem?_map, hcall]
    rfl
  · rw [dropNewline_line, trailingDots_snoc]

/-- C6 amended, on the text `gone.`: one trailing period in, two out. -/
theorem C6_appends_one_period_witness :
    trailingDots "gone." = 1 ∧
    ∃ line, (RunE (constParams "ns" (fun _ => some ⟨"gone."⟩)) () ["r"]).2.writes[0]?
        = some line ∧
      dropNewline line = "gone." ++ "." ∧
      trailingDots (dropNewline line) = trailingDots "gone." + 1 :=
  ⟨by decide,
   C6_appends_one_period (constParams "ns" (fun _ => some ⟨"gone."⟩)) () ["r"] "ns"
      ⟨(), fun s _ => (some ⟨"gone."⟩, s)⟩ (by decide) rfl rfl 0 "r" ⟨"gone."⟩ (by decide)⟩

/-- C7: for a non-empty argument list with namespace and client resolved, `DeleteRevision`
is invoked once per argument, in input order, whichever calls fail: the names in the call
log are the argument list, each logged result is what the client returned for that call
in sequence, every call has its own chunk, and `RunE` returns `nil`. -/
theorem C7_no_early_exit {κ σ : Type} (p : KnParams κ σ) (cmd : κ)
    (args : List String) (ns : String) (client : KnServingClient σ) (hargs : args ≠ [])
    (hns : p.GetNamespace cmd = .ok ns) (hcl : p.NewServingClient ns = .ok client) :
    (RunE p cmd args).2.calls.map Prod.fst = args ∧
    (RunE p cmd args).2.calls.map Prod.snd
        = clientResults client.DeleteRevision client.state args ∧
    (RunE p cmd args).2.calls.length = args.length ∧
    (RunE p cmd args).2.writes.length = args.length ∧
    (RunE p cmd args).1 = none := by
  have hlen := clientResults_length client.DeleteRevision args client.state
  rw [RunE_resolved p cmd args ns client hargs hns hcl]
  refine ⟨?_, ?_, ?_, ?_, rfl⟩
  · exact List.map_fst_zip _ _ (by omega)
  · exact List.map_snd_zip _ _ (by omega)
  · simp [hlen]
  · simp [hlen]

/-- C7 on a run shaped like the end-to-end test, with the missing revision first: the two
existing revisions after it are still deleted and reported. -/
theorem C7_no_early_exit_witness :
    (RunE (storeParams "ns" ["hello-1", "hello-2"]) ()
        ["hello-nonexist", "hello-1", "hello-2"]).2.calls.map Prod.fst
      = ["hello-nonexist", "hello-1", "hello-2"] ∧
    (RunE (storeParams "ns" ["hello-1", "hello-2"]) ()
        ["hello-nonexist", "hello-1", "hello-2"]).2.writes
      = ["revisions.serving.knative.dev \"hello-nonexist\" not found.\n",
         "Revision 'hello-1' successfully deleted in namespace 'ns'.\n",
         "Revision 'hello-2' successfully deleted in namespace 'ns'.\n"] :=
  ⟨(C7_no_early_exit (storeParams "ns" ["hello-1", "hello-2"]) ()
      ["hello-nonexist", "hello-1", "hello-2"] "ns" ⟨["hello-1", "hello-2"], storeDelete⟩
      (by decide) rfl rfl).1,
   by decide⟩

/-- C8: with a non-empty argument list, when `GetNamespace` fails with `e`, or it succeeds
and `NewServingClient` fails with `e`, `RunE` returns `e` itself, `DeleteRevision` is never
invoked and nothing is written. -/
theorem C8_structural_failure {κ σ : Type} (p : KnParams κ σ) (cmd : κ)
    (args : List String) (e : GoError) (hargs : args ≠ [])
    (hfail : p.GetNamespace cmd = .error e ∨
      ∃ ns, p.GetNamespace cmd = .ok ns ∧ p.NewServingClient ns = .error e) :
    (RunE p cmd args).1 = some e ∧
    (RunE p cmd args).2.calls = [] ∧
    (RunE p cmd args).2.writes = [] ∧
    (RunE p cmd args).2.out = "" := by
  have hrun : RunE p cmd args = (some e, Trace.empty) := by
    rcases hfail with hns | ⟨ns, hns, hcl⟩
    · exact RunE_ns_error p cmd args e hargs hns
    · exact RunE_client_error p cmd args ns e hargs hns hcl
  rw [hrun]
  exact ⟨rfl, rfl, rfl, rfl⟩

/-- C8 on two runs: one where namespace resolution fails, one where it succeeds and client
construction fails. -/
theorem C8_structural_failure_witness :
    ((RunE ({ GetNamespace := fun _ => .error ⟨"no namespace"⟩,
              NewServingClient := fun _ => .ok ⟨(), fun s _ => (none, s)⟩ } :
            KnParams Unit Unit) () ["r"]).1 = some ⟨"no namespace"⟩ ∧
     (RunE ({ GetNamespace := fun _ => .error ⟨"no namespace"⟩,
              NewServingClient := fun _ => .ok ⟨(), fun s _ => (none, s)⟩ } :
            KnParams Unit Unit) () ["r"]).2.calls = []) ∧
    ((RunE ({ GetNamespace := fun _ => .ok "ns",
              NewServingClient := fun _ => .error ⟨"no config"⟩ } :
            KnParams Unit Unit) () ["r"]).1 = some ⟨"no config"⟩ ∧
     (RunE ({ GetNamespace := fun _ => .ok "ns",
              NewServingClient := fun _ => .error ⟨"no config"⟩ } :
            KnParams Unit Unit) () ["r"]).2.writes = []) :=
  ⟨⟨(C8_structural_failure _ () ["r"] ⟨"no namespace"⟩ (by decide) (Or.inl rfl)).1,
    (C8_structural_failure _ () ["r"] ⟨"no namespace"⟩ (by decide) (Or.inl rfl)).2.1⟩,
   ⟨(C8_structural_failure _ () ["r"] ⟨"no config"⟩ (by decide)
        (Or.inr ⟨"ns", rfl, rfl⟩)).1,
    (C8_structural_failure _ () ["r"] ⟨"no config"⟩ (by decide)
        (Or.inr ⟨"ns", rfl, rfl⟩)).2.2.1⟩⟩

/-- C9: in an argument list holding the same identifier `x` at two positions `i < j`
(namespace and client resolved), `DeleteRevision` is called with `x` at each of the two
positions, as often in all as `x` occurs in the list, each call returning what the
client returns at that point of the sequence, and each position gets its own chunk
rendering the result of its own call; when the earlier call succeeds and the later one
returns an error `e`, the earlier chunk is the success line and the later one is the text
of `e` with a period. -/
theorem C9_duplicates_independent {κ σ : Type} (p : KnParams κ σ) (cmd : κ)
    (args : List String) (ns : String) (client : KnServingClient σ) (x : String)
    (i j : Nat) (_hij : i < j) (hi : args[i]? = some x) (hj : args[j]? = some x)
    (hns : p.GetNamespace cmd = .ok ns) (hcl : p.NewServingClient ns = .ok client) :
    ((RunE p cmd args).2.calls.map Prod.fst).count x = args.count x ∧
    ∃ ri rj,
      (clientResults client.DeleteRevision client.state args)[i]? = some ri ∧
      (clientResults client.DeleteRevision client.state args)[j]? = some rj ∧
      (RunE p cmd args).2.calls[i]? = some (x, ri) ∧
      (RunE p cmd args).2.calls[j]? = some (x, rj) ∧
      (RunE p cmd args).2.writes[i]? = some (renderOutcome ns (x, ri)) ∧
      (RunE p cmd args).2.writes[j]? = some (renderOutcome ns (x, rj)) ∧
      (ri = none → ∀ e, rj = some e →
        (RunE p cmd args).2.writes[i]?
          = some ("Revision '" ++ x ++ "' successfully deleted in namespace '" ++ ns
                    ++ "'.\n") ∧
        (RunE p cmd args).2.writes[j]? = some (e.Error ++ ".\n")) := by
  have hargs : args ≠ [] := by
    intro h
    rw [h] at hi
    simp at hi
  have hlen := clientResults_length client.DeleteRevision args client.state
  obtain ⟨ri, hri, hci⟩ := zip_getElem?_left args _ hlen i x hi
  obtain ⟨rj, hrj, hcj⟩ := zip_getElem?_left args _ hlen j x hj
  rw [RunE_resolved p cmd args ns client hargs hns hcl]
  simp only
  refine ⟨?_, ri, rj, hri, hrj, hci, hcj, ?_, ?_, ?_⟩
  · rw [List.map_fst_zip _ _ (by omega)]
  · rw [List.getElem?_map, hci]; rfl
  · rw [List.getElem?_map, hcj]; rfl
  · intro h1 e h2
    subst h1 h2
    constructor
    · rw [List.getElem?_map, hci]; rfl
    · rw [List.getElem?_map, hcj]; rfl

/-- C9 on a cluster holding `rev`, asked to delete `rev` twice: the first delete removes
it, the second finds nothing. -/
theorem C9_duplicates_independent_witness :
    (["rev", "rev"] : List String)[0]? = some "rev" ∧
    (["rev", "rev"] : List String)[1]? = some "rev" ∧
    (((RunE (storeParams "ns" ["rev"]) () ["rev", "rev"]).2.calls.map Prod.fst).count "rev"
      = 2) ∧
    (RunE (storeParams "ns" ["rev"]) () ["rev", "rev"]).2.writes
      = ["Revision 'rev' successfully deleted in namespace 'ns'.\n",
         "revisions.serving.knative.dev \"rev\" not found.\n"] :=
  ⟨by decide, by decide,
   (C9_duplicates_independent (storeParams "ns" ["rev"]) () ["rev", "rev"] "ns"
      ⟨["rev"], storeDelete⟩ "rev" 0 1 (by decide) (by decide) (by decide) rfl rfl).1,
   by decide⟩

/-- C10: for a client whose `DeleteRevision` result depends only on the name passed, a
resolved namespace, and non-empty argument lists `xs` and `ys`, the output of the run on
`xs ++ ys` is the output of the run on `xs` followed by the output of the run on `ys`, and
the three runs return `nil`. -/
theorem C10_output_compositional {κ σ : Type} (p : KnParams κ σ) (cmd : κ)
    (ns : String) (client : KnServingClient σ) (f : String → Option GoError)
    (xs ys : List String) (hxs : xs ≠ []) (hys : ys ≠ [])
    (hns : p.GetNamespace cmd = .ok ns) (hcl : p.NewServingClient ns = .ok client)
    (hf : ∀ s name, (client.DeleteRevision s name).1 = f name) :
    (RunE p cmd (xs ++ ys)).2.out = (RunE p cmd xs).2.out ++ (RunE p cmd ys).2.out ∧
    (RunE p cmd (xs ++ ys)).1 = none ∧
    (RunE p cmd xs).1 = none ∧
    (RunE p cmd ys).1 = none := by
  have hxy : xs ++ ys ≠ [] := by simp [hxs]
  rw [RunE_resolved p cmd (xs ++ ys) ns client hxy hns hcl,
    RunE_resolved p cmd xs ns client hxs hns hcl,
    RunE_resolved p cmd ys ns client hys hns hcl]
  refine ⟨?_, rfl, rfl, rfl⟩
  simp only [clientResults_stateless client.DeleteRevision f hf]
  have hzip : ∀ l : List String,
      (l.zip (l.map f)).map (renderOutcome ns) = l.map (fun n => renderOutcome ns (n, f n)) := by
    intro l
    induction l with
    | nil => rfl
    | cons a rest ih => simp [ih]
  rw [hzip (xs ++ ys), hzip xs, hzip ys]
  simp only [List.map_append, Trace.out, List.foldl_append]
  exact out_foldl_acc _ _

/-- C10 on a run with one failing name on each side of the split. -/
theorem C10_output_compositional_witness :
    (RunE (constParams "ns" (fun n => if n = "bad" then some ⟨"nope"⟩ else none)) ()
        (["a", "bad"] ++ ["bad", "b"])).2.out
      = (RunE (constParams "ns" (fun n => if n = "bad" then some ⟨"nope"⟩ else none)) ()
          ["a", "bad"]).2.out
        ++ (RunE (constParams "ns" (fun n => if n = "bad" then some ⟨"nope"⟩ else none)) ()
          ["bad", "b"]).2.out :=
  (C10_output_compositional
      (constParams "ns" (fun n => if n = "bad" then some ⟨"nope"⟩ else none)) () "ns"
      ⟨(), fun s n => (if n = "bad" then some ⟨"nope"⟩ else none, s)⟩
      (fun n => if n = "bad" then some ⟨"nope"⟩ else none)
      ["a", "bad"] ["bad", "b"] (by decide) (by decide) rfl rfl (fun _ _ => rfl)).1

end Revision
